import Mathlib

/-!
Verification of the Tau-GUI process I/O bridge (`tau_gui.py`).

This file shallowly embeds the algorithmic core of the program:

* `strip_ansi_codes` — the ANSI escape stripper (`re.sub(r'\x1B\[[0-9;?]*[a-zA-Z]', '', text)`),
  implemented as a left-to-right scanner equivalent to the leftmost-match
  substitution semantics of the Python regex;
* `processLine` / `processLines` / `readLoop` — the body of `_run_process`'s
  read loop: line sanitization, prompt/echo recognition, pending-command
  timing, and event emission;
* `send_command` — the command submission path, including the
  `clear`/`cls` special case and the dead-process / write-failure paths;
* `load_script` / `execute_next_step` — the script stepper.

Python mutable instance fields become explicit state records; widget/queue
side effects become explicit event or step lists; the wall clock becomes an
explicit `Nat` parameter (Python truthiness of `command_start_time` — where
`None` and `0.0` are both falsy — is modelled faithfully by `pyTruthyTime`).
-/

set_option autoImplicit false

namespace TauGui

/-- The ESC byte `\x1B` that opens an ANSI CSI sequence. -/
def escChar : Char := '\x1B'

/-- Membership in the regex parameter class `[0-9;?]`. -/
def isParamChar (c : Char) : Bool :=
  (48 ≤ c.toNat && c.toNat ≤ 57) || c = ';' || c = '?'

/-- Membership in the regex final class `[a-zA-Z]`. -/
def isFinalLetter (c : Char) : Bool :=
  (97 ≤ c.toNat && c.toNat ≤ 122) || (65 ≤ c.toNat && c.toNat ≤ 90)

/-- Scanner state while matching `ESC [ params letter`. -/
inductive ScanSt where
  | normal
  | sawEsc
  | inCsi (params : List Char)
deriving DecidableEq, Repr

/-- One scanner transition.  The accumulator holds the output produced so
far and the current matching state.  When a partial match fails, the
buffered characters are flushed verbatim (none of them can start a new
match, since only `escChar` can) and the failing character is reprocessed. -/
def stripStep : List Char × ScanSt → Char → List Char × ScanSt
  | (out, ScanSt.normal), c =>
      if c = escChar then (out, ScanSt.sawEsc) else (out ++ [c], ScanSt.normal)
  | (out, ScanSt.sawEsc), c =>
      if c = '[' then (out, ScanSt.inCsi [])
      else if c = escChar then (out ++ [escChar], ScanSt.sawEsc)
      else (out ++ [escChar, c], ScanSt.normal)
  | (out, ScanSt.inCsi ps), c =>
      if isParamChar c then (out, ScanSt.inCsi (ps ++ [c]))
      else if isFinalLetter c then (out, ScanSt.normal)
      else if c = escChar then (out ++ escChar :: '[' :: ps, ScanSt.sawEsc)
      else (out ++ escChar :: '[' :: (ps ++ [c]), ScanSt.normal)

/-- Flush an unfinished partial match at end of input. -/
def stripFinish : List Char × ScanSt → List Char
  | (out, ScanSt.normal) => out
  | (out, ScanSt.sawEsc) => out ++ [escChar]
  | (out, ScanSt.inCsi ps) => out ++ escChar :: '[' :: ps

/-- Character-list core of the sanitizer. -/
def stripAnsiChars (s : List Char) : List Char :=
  stripFinish (s.foldl stripStep ([], ScanSt.normal))

/-- `strip_ansi_codes(text)`: removes every occurrence of the pattern
`ESC [ <params drawn from 0-9;?> <final ASCII letter>`, leaving all other
characters in place (`tau_gui.py`, lines 121-123). -/
def strip_ansi_codes (text : String) : String :=
  ⟨stripAnsiChars text.data⟩

/-- Python whitespace (the ASCII portion stripped by `str.strip()`). -/
def isSpaceChar (c : Char) : Bool :=
  c = ' ' || c = '\t' || c = '\n' || c = '\r' || c = '\x0b' || c = '\x0c'

/-- Python `str.strip()`: drop whitespace from both ends. -/
def pyStrip (s : String) : String :=
  ⟨((s.data.dropWhile isSpaceChar).reverse.dropWhile isSpaceChar).reverse⟩

/-- Python `str.lower()` restricted to ASCII letters. -/
def pyLowerChar (c : Char) : Char :=
  if 65 ≤ c.toNat ∧ c.toNat ≤ 90 then Char.ofNat (c.toNat + 32) else c

/-- Python `str.lower()`. -/
def pyLower (s : String) : String :=
  ⟨s.data.map pyLowerChar⟩

/-- Python `str.startswith("#")`. -/
def startsWithHash (s : String) : Bool :=
  match s.data with
  | [] => false
  | c :: _ => c = '#'

/-- A line is blank when `line.strip()` is falsy. -/
def isBlank (line : String) : Bool := pyStrip line = ""

/-- Python truthiness of the `command_start_time` field: `None` and the
float `0.0` are both falsy (`if self.command_start_time:`). -/
def pyTruthyTime : Option Nat → Bool
  | none => false
  | some t => t ≠ 0

/-- The mutable instance fields of `TauGUI` that the bridge logic reads and
writes: whether `self.process` is set and `poll()` returns `None`
(`process_alive`), `self.last_command`, and `self.command_start_time`
(monotonic clock, modelled as `Nat`). -/
structure SessionState where
  process_alive : Bool
  last_command : Option String
  command_start_time : Option Nat
deriving DecidableEq, Repr

/-- One observable emission: a `("repl", text, tag)` line, a history line,
or a `("debug_data", …)` entry of type send / recv / info.  `debugRecv`
carries the computed `duration` value. -/
inductive Ev where
  | repl (text : String) (tag : Option String)
  | history (text : String)
  | debugSend (text : String)
  | debugRecv (text : String) (duration : Nat)
  | debugInfo (text : String)
deriving DecidableEq, Repr

/-- The body of the read loop in `_run_process` (lines 585-608) for one raw
line: strip and sanitize, drop empties and bare prompts, recognize echoes
(clearing `last_command` only), and otherwise emit the response line with
the elapsed duration when a submission timestamp is still held. -/
def processLine (st : SessionState) (now : Nat) (line : String) :
    SessionState × List Ev :=
  let cleaned_line := strip_ansi_codes (pyStrip line)
  if cleaned_line = "" then (st, [])
  else if cleaned_line = "tau>" then (st, [])
  else
    let is_echo : Bool :=
      match st.last_command with
      | some c => cleaned_line = c
      | none => false
    let is_prompt_and_echo : Bool :=
      match st.last_command with
      | some c => cleaned_line = "tau> " ++ c
      | none => false
    if is_echo || is_prompt_and_echo then
      ({ st with last_command := none }, [])
    else
      let attached := pyTruthyTime st.command_start_time
      let duration := if attached then now - st.command_start_time.getD 0 else 0
      let st2 := if attached then { st with command_start_time := none } else st
      (st2, [Ev.repl cleaned_line none, Ev.debugRecv cleaned_line duration])

/-- Sequential processing of several raw lines, each read at its own clock
value, accumulating emissions in order. -/
def processLines (st : SessionState) :
    List (Nat × String) → SessionState × List Ev
  | [] => (st, [])
  | (now, l) :: rest =>
      let r := processLine st now l
      let r2 := processLines r.1 rest
      (r2.1, r.2 ++ r2.2)

/-- One iteration's worth of input to the read loop: either a successfully
read line (with the clock value at which it is processed), or a Python
exception raised while reading/processing that iteration.  The end of the
list stands for `readline()` returning empty with `poll()` non-`None`. -/
inductive ReadItem where
  | line (now : Nat) (s : String)
  | raiseErr (msg : String)
deriving DecidableEq, Repr

/-- The `while True` read loop of `_run_process` together with its
enclosing `try/except/finally` (lines 577-612): end-of-stream breaks the
loop; an exception anywhere in the loop body escapes to the `except`
clause, which reports it as an Error-tagged repl line; in every case the
`finally` clause emits the `PROCESS FINISHED` info event. -/
def readLoop (st : SessionState) : List ReadItem → SessionState × List Ev
  | [] => (st, [Ev.debugInfo "PROCESS FINISHED"])
  | ReadItem.line now l :: rest =>
      let r := processLine st now l
      let r2 := readLoop r.1 rest
      (r2.1, r.2 ++ r2.2)
  | ReadItem.raiseErr msg :: _ =>
      (st, [Ev.repl ("Error: " ++ msg) (some "error"),
            Ev.debugInfo "PROCESS FINISHED"])

/-- One primitive action performed by `send_command`, in program order:
emitting a display/debug line, clearing the REPL log widget, assigning
the pending-command fields, or attempting a stdin write (+flush). -/
inductive Step where
  | emit (e : Ev)
  | clearReplLog
  | setPending (command : String) (t : Nat)
  | writeStdin (s : String)
deriving DecidableEq, Repr

/-- `send_command` (lines 504-524).  `writeErr` is `some msg` when the
stdin write raises an exception with message `msg`, `none` when it
succeeds.  Returns the updated state and the ordered trace of actions the
call performs. -/
def send_command (st : SessionState) (now : Nat) (writeErr : Option String)
    (command : String) : SessionState × List Step :=
  if st.process_alive then
    if pyLower (pyStrip command) = "clear" ∨ pyLower (pyStrip command) = "cls" then
      -- clear branch: wipe the repl log, send a bare newline
      -- (a failed write is swallowed by `except Exception: pass`), return
      (st, [Step.clearReplLog, Step.writeStdin "\n"])
    else
      let st2 := { st with command_start_time := some now,
                           last_command := some command }
      let pre := [Step.emit (Ev.history ("» " ++ command)),
                  Step.emit (Ev.debugSend command),
                  Step.setPending command now,
                  Step.writeStdin (command ++ "\n")]
      match writeErr with
      | none => (st2, pre)
      | some msg =>
          (st2, pre ++ [Step.emit (Ev.repl ("Error writing to process: " ++ msg)
                                     (some "error"))])
  else
    (st, [Step.emit (Ev.repl "Tau process is not running." (some "error"))])

/-- The script stepper's state: `self.script_lines` and
`self.current_step_index`. -/
structure ScriptSt where
  script_lines : List String
  current_step_index : Nat
deriving DecidableEq, Repr

/-- Outcome of `load_script`: a usable script, or the "Empty File" early
return when every line is blank. -/
inductive LoadResult where
  | ok
  | emptyFile
deriving DecidableEq, Repr

/-- `load_script` (lines 419-443), restricted to its state effect: the file
content's lines replace `script_lines`, the cursor resets to 0, and the
blank-only check (`if not any(line.strip() …)`) reports an empty file. -/
def load_script (lines : List String) : ScriptSt × LoadResult :=
  ({ script_lines := lines, current_step_index := 0 },
   if lines.any (fun l => !(isBlank l)) then LoadResult.ok
   else LoadResult.emptyFile)

/-- Number of leading blank lines of a list. -/
def countBlanks : List String → Nat
  | [] => 0
  | l :: ls => if isBlank l then countBlanks ls + 1 else 0

/-- The leading `while` loop of `execute_next_step`: advance the cursor
past the run of blank lines starting at `i`. -/
def skipBlanks (lines : List String) (i : Nat) : Nat :=
  i + countBlanks (lines.drop i)

/-- The trailing look-ahead loop of `execute_next_step`: is there a
non-blank line at or after index `i`? -/
def hasNonBlankFrom (lines : List String) (i : Nat) : Bool :=
  (lines.drop i).any (fun l => !(isBlank l))

/-- One observable action of the script stepper. -/
inductive ScriptEff where
  | logComment (line : String)
  | logHistory (text : String)
  | submit (command : String)
  | statusProgress (cursor total : Nat)
  | statusFinished
deriving DecidableEq, Repr

/-- `execute_next_step` (lines 469-498): skip blanks; at end of script,
finish; otherwise display a comment line (repl + history, no submit) or
submit the line, advance the cursor, then either report `Step: cursor/len`
or finish when no non-blank line remains. -/
def execute_next_step (st : ScriptSt) : ScriptSt × List ScriptEff :=
  let i := skipBlanks st.script_lines st.current_step_index
  if h : i < st.script_lines.length then
    let command := st.script_lines.get ⟨i, h⟩
    let effs :=
      if startsWithHash (pyStrip command) then
        [ScriptEff.logComment command, ScriptEff.logHistory ("» " ++ command)]
      else
        [ScriptEff.submit command]
    let tail :=
      if hasNonBlankFrom st.script_lines (i + 1) then
        [ScriptEff.statusProgress (i + 1) st.script_lines.length]
      else
        [ScriptEff.statusFinished]
    ({ st with current_step_index := i + 1 }, effs ++ tail)
  else
    ({ st with current_step_index := i }, [ScriptEff.statusFinished])

/-- Operations a caller can perform on the stepper. -/
inductive ScriptOp where
  | load (lines : List String)
  | execNext

/-- State effect of one stepper operation. -/
def applyOp (st : ScriptSt) : ScriptOp → ScriptSt
  | ScriptOp.load lines => (load_script lines).1
  | ScriptOp.execNext => (execute_next_step st).1

/-- Folding a sequence of stepper operations over a state. -/
def runOps (st : ScriptSt) (ops : List ScriptOp) : ScriptSt :=
  ops.foldl applyOp st

/-! ## Well-formed CSI interleavings (for the sanitizer claim) -/

/-- A block of input to the sanitizer: either a run of plain text or one
well-formed CSI sequence `ESC [ params final`. -/
inductive CsiBlock where
  | plain (s : List Char)
  | escSeq (params : List Char) (final : Char)
deriving DecidableEq, Repr

/-- The characters a block contributes to the raw input. -/
def CsiBlock.render : CsiBlock → List Char
  | CsiBlock.plain s => s
  | CsiBlock.escSeq ps f => escChar :: '[' :: (ps ++ [f])

/-- The characters of a block that are not part of an escape sequence. -/
def CsiBlock.keep : CsiBlock → List Char
  | CsiBlock.plain s => s
  | CsiBlock.escSeq _ _ => []

/-- Well-formedness: plain text holds no ESC byte; a CSI sequence has
parameters drawn from `[0-9;?]` and an ASCII-letter final byte. -/
def CsiBlock.wf : CsiBlock → Bool
  | CsiBlock.plain s => s.all (fun c => c ≠ escChar)
  | CsiBlock.escSeq ps f => ps.all isParamChar && isFinalLetter f

/-- The regex classes `[0-9;?]` and `[a-zA-Z]` are disjoint. -/
theorem finalLetter_not_param (c : Char) (h : isFinalLetter c = true) :
    isParamChar c = false := by
  have hn : (97 ≤ c.toNat ∧ c.toNat ≤ 122) ∨ (65 ≤ c.toNat ∧ c.toNat ≤ 90) := by
    simpa [isFinalLetter, Bool.or_eq_true, Bool.and_eq_true,
      decide_eq_true_eq] using h
  rcases Bool.eq_false_or_eq_true (isParamChar c) with ht | hf
  · exfalso
    have hp : ((48 ≤ c.toNat ∧ c.toNat ≤ 57) ∨ c = ';') ∨ c = '?' := by
      simpa [isParamChar, Bool.or_eq_true, Bool.and_eq_true,
        decide_eq_true_eq] using ht
    rcases hp with (h1 | h2) | h3
    · omega
    · subst h2; revert hn; decide
    · subst h3; revert hn; decide
  · exact hf

/-- Plain text free of ESC passes through the scanner unchanged. -/
theorem foldl_stripStep_plain (s : List Char) (out : List Char)
    (h : ∀ c ∈ s, c ≠ escChar) :
    s.foldl stripStep (out, ScanSt.normal) = (out ++ s, ScanSt.normal) := by
  induction s generalizing out with
  | nil => simp
  | cons c cs ih =>
      have hc : c ≠ escChar := h c (List.mem_cons_self c cs)
      have hcs : ∀ x ∈ cs, x ≠ escChar := fun x hx => h x (List.mem_cons_of_mem _ hx)
      simp [List.foldl_cons, stripStep, hc, ih (out ++ [c]) hcs]

/-- Scanning a run of parameter characters keeps accumulating them. -/
theorem foldl_stripStep_params (ps : List Char) (acc out : List Char)
    (h : ∀ c ∈ ps, isParamChar c = true) :
    ps.foldl stripStep (out, ScanSt.inCsi acc)
      = (out, ScanSt.inCsi (acc ++ ps)) := by
  induction ps generalizing acc with
  | nil => simp
  | cons c cs ih =>
      have hc := h c (List.mem_cons_self c cs)
      have hcs : ∀ x ∈ cs, isParamChar x = true :=
        fun x hx => h x (List.mem_cons_of_mem _ hx)
      simp [List.foldl_cons, stripStep, hc, ih (acc ++ [c]) hcs]

/-- A whole well-formed CSI sequence is consumed without producing
output. -/
theorem foldl_stripStep_csi (ps : List Char) (f : Char) (out : List Char)
    (hps : ∀ c ∈ ps, isParamChar c = true) (hf : isFinalLetter f = true) :
    (escChar :: '[' :: (ps ++ [f])).foldl stripStep (out, ScanSt.normal)
      = (out, ScanSt.normal) := by
  have h1 : stripStep (out, ScanSt.normal) escChar = (out, ScanSt.sawEsc) := by
    simp [stripStep]
  have h2 : stripStep (out, ScanSt.sawEsc) '[' = (out, ScanSt.inCsi []) := by
    simp [stripStep]
  simp only [List.foldl_cons, h1, h2, List.foldl_append]
  rw [foldl_stripStep_params ps [] out hps]
  simp [List.foldl_cons, stripStep, finalLetter_not_param f hf, hf]

/-- Scanning a well-formed interleaving produces exactly the plain text,
in order. -/
theorem foldl_stripStep_blocks (bs : List CsiBlock) (out : List Char)
    (h : ∀ b ∈ bs, b.wf = true) :
    ((bs.map CsiBlock.render).flatten).foldl stripStep (out, ScanSt.normal)
      = (out ++ (bs.map CsiBlock.keep).flatten, ScanSt.normal) := by
  induction bs generalizing out with
  | nil => simp
  | cons b bs ih =>
      have hb := h b (List.mem_cons_self b bs)
      have hbs : ∀ x ∈ bs, x.wf = true :=
        fun x hx => h x (List.mem_cons_of_mem _ hx)
      cases b with
      | plain s =>
          have hs : ∀ c ∈ s, c ≠ escChar := by
            simpa [CsiBlock.wf, List.all_eq_true] using hb
          simp only [List.map_cons, List.flatten_cons, CsiBlock.render,
            List.foldl_append, foldl_stripStep_plain s out hs, ih (out ++ s) hbs]
          simp [CsiBlock.keep, List.append_assoc]
      | escSeq ps f =>
          have hps : ∀ c ∈ ps, isParamChar c = true := by
            have := hb
            simp [CsiBlock.wf, List.all_eq_true, Bool.and_eq_true] at this
            exact this.1
          have hf : isFinalLetter f = true := by
            have := hb
            simp [CsiBlock.wf, Bool.and_eq_true] at this
            exact this.2
          simp only [List.map_cons, List.flatten_cons, CsiBlock.render,
            List.foldl_append, foldl_stripStep_csi ps f out hps hf, ih out hbs]
          simp [CsiBlock.keep]

/-- The kept characters of a well-formed interleaving contain no ESC. -/
theorem no_esc_in_keep (bs : List CsiBlock) (h : ∀ b ∈ bs, b.wf = true) :
    escChar ∉ (bs.map CsiBlock.keep).flatten := by
  intro hmem
  rw [List.mem_flatten] at hmem
  obtain ⟨l, hl, hcl⟩ := hmem
  rw [List.mem_map] at hl
  obtain ⟨b, hb, rfl⟩ := hl
  cases b with
  | plain s =>
      have hs : ∀ c ∈ s, c ≠ escChar := by
        simpa [CsiBlock.wf, List.all_eq_true] using h _ hb
      exact hs escChar hcl rfl
  | escSeq ps f => simp [CsiBlock.keep] at hcl

/-! ## Claim theorems -/

/-- C1: after `submit("defs")` (pending text `"defs"`, submission time 10),
feeding the read loop the raw lines `"tau> defs"`, `"a := 1"`, `"b := 2"`,
`"tau>"` emits exactly two ResponseLine (`repl`) events: `"a := 1"` and
`"b := 2"`, in that order, and nothing for the echo line or the bare
prompt.  The code marks the response-start line by attaching the pending
elapsed duration to it (the `command_start_time` slot, still 10 here, is
consumed exactly at `"a := 1"`, whose `debugRecv` carries duration
`14 - 10 = 4`); the continuation line `"b := 2"` carries duration 0 with no
timestamp left.  The second conjunct exhibits the consumption point: after
the echo and the first response line the timestamp slot is empty. -/
theorem framer_defs_demo :
    processLines ⟨true, some "defs", some 10⟩
        [(13, "tau> defs\n"), (14, "a := 1\n"), (15, "b := 2\n"), (16, "tau>\n")]
      = (⟨true, none, none⟩,
         [Ev.repl "a := 1" none, Ev.debugRecv "a := 1" 4,
          Ev.repl "b := 2" none, Ev.debugRecv "b := 2" 0])
    ∧ (processLines ⟨true, some "defs", some 10⟩
        [(13, "tau> defs\n"), (14, "a := 1\n")]).1 = ⟨true, none, none⟩ := by
  decide

/-- C2 (counterexample): the claim says recognizing an echo clears the
whole PendingCommand — its text *and* its submission timestamp — and that
consequently a duration is attached only when a response line precedes its
echo.  In the code the echo branch clears `last_command` only: after the
echo `"foo"` the timestamp is still `some 5`, and the *subsequent*
response line `"bar"` still gets the elapsed duration `9 - 5 = 4`
attached, although its echo was already seen. -/
theorem echo_keeps_timestamp :
    processLine ⟨true, some "foo", some 5⟩ 9 "foo\n"
      = (⟨true, none, some 5⟩, [])
    ∧ processLine ⟨true, none, some 5⟩ 9 "bar\n"
      = (⟨true, none, none⟩,
         [Ev.repl "bar" none, Ev.debugRecv "bar" 4]) := by
  decide

/-- C3 (counterexample): the claim says the read loop continues looping
across individual line-processing errors.  In the code the whole loop body
sits inside a single `try`: the first raised error escapes the loop, so
the following readable line `"x"` is never processed (no event for it is
emitted); the loop reports the error and ends. -/
theorem readloop_error_aborts :
    readLoop ⟨true, none, none⟩ [ReadItem.raiseErr "boom", ReadItem.line 3 "x\n"]
      = (⟨true, none, none⟩,
         [Ev.repl "Error: boom" (some "error"),
          Ev.debugInfo "PROCESS FINISHED"]) := by
  decide

/-- C4: stepping through the script `["# header", "", "cmd1", "cmd2"]`
from cursor 0: the first `execute_next_step` displays the comment line
(repl + history) and submits nothing, leaving cursor 1; the second skips
the blank line, submits `"cmd1"` and reports progress `3/4`; the third
submits `"cmd2"` and reaches the terminal finished state (cursor 4 =
length, `statusFinished`); a fourth call is a finished no-op. -/
theorem script_step_demo :
    execute_next_step ⟨["# header", "", "cmd1", "cmd2"], 0⟩
      = (⟨["# header", "", "cmd1", "cmd2"], 1⟩,
         [ScriptEff.logComment "# header", ScriptEff.logHistory "» # header",
          ScriptEff.statusProgress 1 4])
    ∧ execute_next_step ⟨["# header", "", "cmd1", "cmd2"], 1⟩
      = (⟨["# header", "", "cmd1", "cmd2"], 3⟩,
         [ScriptEff.submit "cmd1", ScriptEff.statusProgress 3 4])
    ∧ execute_next_step ⟨["# header", "", "cmd1", "cmd2"], 3⟩
      = (⟨["# header", "", "cmd1", "cmd2"], 4⟩,
         [ScriptEff.submit "cmd2", ScriptEff.statusFinished])
    ∧ execute_next_step ⟨["# header", "", "cmd1", "cmd2"], 4⟩
      = (⟨["# header", "", "cmd1", "cmd2"], 4⟩, [ScriptEff.statusFinished]) := by
  decide

/-- C6: loading the all-blank script `["", "   "]` reports the empty-file
error synchronously while still replacing the sequence (cursor 0), and
the stepper accepts a subsequent successful load (`load_script` does not
depend on the previous state, so any later non-blank load succeeds). -/
theorem empty_script_load :
    load_script ["", "   "]
      = (⟨["", "   "], 0⟩, LoadResult.emptyFile)
    ∧ load_script ["cmd1"]
      = (⟨["cmd1"], 0⟩, LoadResult.ok) := by
  decide

/-- C2 (amended): for every sanitized non-empty, non-prompt line matching
the pending command text verbatim or `"tau> " ++` the pending text, the
line is recognized as the echo and discarded with no event; the echo
clears the pending command *text* only — the submission timestamp (and
every other field) is left untouched, so the elapsed duration is attached
to the first genuine response line processed while the timestamp is still
held, whether that line arrives before or after the echo. -/
theorem echo_clears_text_only (st : SessionState) (now : Nat) (line c : String)
    (hc : st.last_command = some c)
    (hne : strip_ansi_codes (pyStrip line) ≠ "")
    (hnp : strip_ansi_codes (pyStrip line) ≠ "tau>")
    (hecho : strip_ansi_codes (pyStrip line) = c ∨
             strip_ansi_codes (pyStrip line) = "tau> " ++ c) :
    processLine st now line = ({ st with last_command := none }, []) := by
  rcases hecho with h | h <;>
    · rw [h] at hne hnp
      simp [processLine, hc, h, hne, hnp]

theorem echo_clears_text_only_witness :
    ((⟨true, some "foo", some 5⟩ : SessionState).last_command = some "foo"
      ∧ strip_ansi_codes (pyStrip "foo\n") ≠ ""
      ∧ strip_ansi_codes (pyStrip "foo\n") ≠ "tau>"
      ∧ (strip_ansi_codes (pyStrip "foo\n") = "foo" ∨
         strip_ansi_codes (pyStrip "foo\n") = "tau> " ++ "foo"))
    ∧ processLine ⟨true, some "foo", some 5⟩ 9 "foo\n"
        = (⟨true, none, some 5⟩, []) :=
  ⟨⟨by decide, by decide, by decide, by decide⟩,
   echo_clears_text_only ⟨true, some "foo", some 5⟩ 9 "foo\n" "foo"
     (by decide) (by decide) (by decide) (by decide)⟩

/-- C3 (amended): the read loop stops on genuine end-of-stream (empty read
with the process no longer alive) and also on the *first* line-processing
error, which it reports as an Error event before ending; in every case the
loop, upon terminating, emits the `PROCESS FINISHED` Info event as its
final emission. -/
theorem readloop_stops_on_error_or_eof :
    (∀ st : SessionState, readLoop st [] = (st, [Ev.debugInfo "PROCESS FINISHED"]))
    ∧ (∀ (st : SessionState) (msg : String) (rest : List ReadItem),
        readLoop st (ReadItem.raiseErr msg :: rest)
          = (st, [Ev.repl ("Error: " ++ msg) (some "error"),
                  Ev.debugInfo "PROCESS FINISHED"]))
    ∧ (∀ (st : SessionState) (items : List ReadItem),
        ∃ evs, (readLoop st items).2 = evs ++ [Ev.debugInfo "PROCESS FINISHED"]) := by
  refine ⟨fun st => rfl, fun st msg rest => rfl, ?_⟩
  intro st items
  induction items generalizing st with
  | nil => exact ⟨[], rfl⟩
  | cons item rest ih =>
      cases item with
      | line now l =>
          obtain ⟨evs, hevs⟩ := ih (processLine st now l).1
          refine ⟨(processLine st now l).2 ++ evs, ?_⟩
          simp [readLoop, hevs]
      | raiseErr msg =>
          exact ⟨[Ev.repl ("Error: " ++ msg) (some "error")], rfl⟩

/-- C5: while the session is alive, submitting any command whose stripped,
lowercased text is `"clear"` or `"cls"` performs exactly two actions —
clearing the local response log and writing a bare newline to the
subprocess's stdin — and leaves the state (in particular the
pending-command text and submission timestamp) unchanged; no history
entry, no debug event, and no PendingCommand is recorded. -/
theorem clear_command_behavior (st : SessionState) (now : Nat)
    (writeErr : Option String) (command : String)
    (halive : st.process_alive = true)
    (hclear : pyLower (pyStrip command) = "clear" ∨
              pyLower (pyStrip command) = "cls") :
    send_command st now writeErr command
      = (st, [Step.clearReplLog, Step.writeStdin "\n"]) := by
  simp [send_command, halive, hclear]

theorem clear_command_behavior_witness :
    ((⟨true, none, none⟩ : SessionState).process_alive = true
      ∧ (pyLower (pyStrip " CLS ") = "clear" ∨ pyLower (pyStrip " CLS ") = "cls"))
    ∧ send_command ⟨true, none, none⟩ 7 none " CLS "
        = (⟨true, none, none⟩, [Step.clearReplLog, Step.writeStdin "\n"]) :=
  ⟨⟨by decide, by decide⟩,
   clear_command_behavior ⟨true, none, none⟩ 7 none " CLS " (by decide) (by decide)⟩

/-- C9: submitting any command while no session is alive (never started or
already exited) performs no stdin write, emits exactly one event — the
Error-tagged line `"Tau process is not running."` — and leaves the state,
in particular the pending-command text and submission timestamp,
unchanged. -/
theorem submit_dead_process (st : SessionState) (now : Nat)
    (writeErr : Option String) (command : String)
    (hdead : st.process_alive = false) :
    send_command st now writeErr command
      = (st, [Step.emit (Ev.repl "Tau process is not running." (some "error"))]) := by
  simp [send_command, hdead]

theorem submit_dead_process_witness :
    (⟨false, some "old", some 3⟩ : SessionState).process_alive = false
    ∧ send_command ⟨false, some "old", some 3⟩ 11 none "defs"
        = (⟨false, some "old", some 3⟩,
           [Step.emit (Ev.repl "Tau process is not running." (some "error"))]) :=
  ⟨by decide,
   submit_dead_process ⟨false, some "old", some 3⟩ 11 none "defs" (by decide)⟩

/-- C10: for a non-`clear`/`cls` command submitted while the session is
alive and whose stdin write fails, the action trace is: history entry,
DebugSend event, pending-command assignment (text and timestamp), then the
attempted write, then the Error event — so the history entry, the
DebugSend event and the PendingCommand are all recorded before the write
is attempted and remain recorded (the final state holds the pending text
and timestamp) when it fails; submission is not rolled back. -/
theorem submit_write_failure (st : SessionState) (now : Nat)
    (msg : String) (command : String)
    (halive : st.process_alive = true)
    (hnc : ¬(pyLower (pyStrip command) = "clear" ∨
             pyLower (pyStrip command) = "cls")) :
    send_command st now (some msg) command
      = ({ st with command_start_time := some now, last_command := some command },
         [Step.emit (Ev.history ("» " ++ command)),
          Step.emit (Ev.debugSend command),
          Step.setPending command now,
          Step.writeStdin (command ++ "\n"),
          Step.emit (Ev.repl ("Error writing to process: " ++ msg)
            (some "error"))]) := by
  simp [send_command, halive, hnc]

theorem submit_write_failure_witness :
    ((⟨true, none, none⟩ : SessionState).process_alive = true
      ∧ ¬(pyLower (pyStrip "defs") = "clear" ∨ pyLower (pyStrip "defs") = "cls"))
    ∧ send_command ⟨true, none, none⟩ 10 (some "Broken pipe") "defs"
        = (⟨true, some "defs", some 10⟩,
           [Step.emit (Ev.history ("» " ++ "defs")),
            Step.emit (Ev.debugSend "defs"),
            Step.setPending "defs" 10,
            Step.writeStdin ("defs" ++ "\n"),
            Step.emit (Ev.repl ("Error writing to process: " ++ "Broken pipe")
              (some "error"))]) :=
  ⟨⟨by decide, by decide⟩,
   submit_write_failure ⟨true, none, none⟩ 10 "Broken pipe" "defs"
     (by decide) (by decide)⟩

/-- C7: `strip_ansi_codes` is a pure total function; on every input that is
a concatenation of well-formed CSI sequences (`ESC [ <digits ; ?>* <ASCII
letter>`) interleaved with ESC-free plain text, the output is exactly the
plain text, in its original order (so characters not part of such a
sequence pass through unchanged), and the output contains no ESC byte from
the original escape sequences. -/
theorem strip_ansi_wellformed (bs : List CsiBlock)
    (h : ∀ b ∈ bs, b.wf = true) :
    strip_ansi_codes ⟨(bs.map CsiBlock.render).flatten⟩
        = ⟨(bs.map CsiBlock.keep).flatten⟩
    ∧ escChar ∉ (strip_ansi_codes ⟨(bs.map CsiBlock.render).flatten⟩).data := by
  have hmain : stripAnsiChars ((bs.map CsiBlock.render).flatten)
      = (bs.map CsiBlock.keep).flatten := by
    unfold stripAnsiChars
    rw [foldl_stripStep_blocks bs [] h]
    simp [stripFinish]
  constructor
  · show (⟨stripAnsiChars ((bs.map CsiBlock.render).flatten)⟩ : String) = _
    rw [hmain]
  · show escChar ∉ stripAnsiChars ((bs.map CsiBlock.render).flatten)
    rw [hmain]
    exact no_esc_in_keep bs h

theorem strip_ansi_wellformed_witness :
    (∀ b ∈ [CsiBlock.plain ['a', 'b'], CsiBlock.escSeq ['3', '1'] 'm',
            CsiBlock.plain ['c', 'd']], b.wf = true)
    ∧ (strip_ansi_codes
          ⟨(([CsiBlock.plain ['a', 'b'], CsiBlock.escSeq ['3', '1'] 'm',
              CsiBlock.plain ['c', 'd']].map CsiBlock.render).flatten)⟩
        = ⟨(([CsiBlock.plain ['a', 'b'], CsiBlock.escSeq ['3', '1'] 'm',
              CsiBlock.plain ['c', 'd']].map CsiBlock.keep).flatten)⟩
      ∧ escChar ∉ (strip_ansi_codes
          ⟨(([CsiBlock.plain ['a', 'b'], CsiBlock.escSeq ['3', '1'] 'm',
              CsiBlock.plain ['c', 'd']].map CsiBlock.render).flatten)⟩).data) :=
  ⟨by decide,
   strip_ansi_wellformed
     [CsiBlock.plain ['a', 'b'], CsiBlock.escSeq ['3', '1'] 'm',
      CsiBlock.plain ['c', 'd']] (by decide)⟩

/-- `countBlanks` never exceeds the list length. -/
theorem countBlanks_le (l : List String) : countBlanks l ≤ l.length := by
  induction l with
  | nil => simp [countBlanks]
  | cons x xs ih =>
      by_cases h : isBlank x = true
      · simp [countBlanks, h]
        omega
      · simp [countBlanks, h]

/-- Skipping blanks never moves the cursor backwards. -/
theorem skipBlanks_ge (lines : List String) (i : Nat) : i ≤ skipBlanks lines i :=
  Nat.le_add_right i _

/-- Skipping blanks keeps the cursor within the sequence bound. -/
theorem skipBlanks_le (lines : List String) (i : Nat) (h : i ≤ lines.length) :
    skipBlanks lines i ≤ lines.length := by
  have h1 := countBlanks_le (lines.drop i)
  have h2 : (lines.drop i).length = lines.length - i := by simp
  unfold skipBlanks
  omega

/-- One `execute_next_step` call never decreases the cursor, keeps it
bounded by the (unchanged) sequence length. -/
theorem execute_next_step_cursor (st : ScriptSt)
    (h : st.current_step_index ≤ st.script_lines.length) :
    st.current_step_index ≤ (execute_next_step st).1.current_step_index
    ∧ (execute_next_step st).1.current_step_index ≤ st.script_lines.length
    ∧ (execute_next_step st).1.script_lines = st.script_lines := by
  have hge := skipBlanks_ge st.script_lines st.current_step_index
  have hle := skipBlanks_le st.script_lines st.current_step_index h
  unfold execute_next_step
  by_cases hlt : skipBlanks st.script_lines st.current_step_index
      < st.script_lines.length
  · rw [dif_pos hlt]
    refine ⟨?_, ?_, rfl⟩
    · show st.current_step_index
        ≤ skipBlanks st.script_lines st.current_step_index + 1
      omega
    · show skipBlanks st.script_lines st.current_step_index + 1
        ≤ st.script_lines.length
      omega
  · rw [dif_neg hlt]
    exact ⟨hge, hle, rfl⟩

/-- Cursor equal to the length is the terminal finished state: the call
reports finished and changes nothing. -/
theorem execute_next_step_terminal (st : ScriptSt)
    (h : st.current_step_index = st.script_lines.length) :
    execute_next_step st = (st, [ScriptEff.statusFinished]) := by
  have hskip : skipBlanks st.script_lines st.current_step_index
      = st.current_step_index := by
    unfold skipBlanks
    rw [h, List.drop_length]
    simp [countBlanks]
  unfold execute_next_step
  rw [hskip, dif_neg (by omega)]

/-- Any sequence of loads and steps keeps the cursor within bounds. -/
theorem runOps_cursor_le (ops : List ScriptOp) (st : ScriptSt)
    (h : st.current_step_index ≤ st.script_lines.length) :
    (runOps st ops).current_step_index ≤ (runOps st ops).script_lines.length := by
  induction ops generalizing st with
  | nil => simpa [runOps] using h
  | cons op rest ih =>
      have hstep : runOps st (op :: rest) = runOps (applyOp st op) rest := by
        simp [runOps]
      rw [hstep]
      cases op with
      | load lines =>
          exact ih ⟨lines, 0⟩ (Nat.zero_le _)
      | execNext =>
          obtain ⟨_, h2, h3⟩ := execute_next_step_cursor st h
          exact ih (execute_next_step st).1 (by rw [h3]; exact h2)

/-- C8: across every sequence of `load` and `execute_next_step` operations
the cursor stays bounded by the sequence length; a single step never
decreases it (so it is monotonically non-decreasing between loads, which
reset it to 0); and cursor = length is the terminal finished state, on
which a further step reports finished and changes nothing. -/
theorem script_cursor_invariant (st : ScriptSt)
    (h : st.current_step_index ≤ st.script_lines.length) :
    (st.current_step_index ≤ (execute_next_step st).1.current_step_index
      ∧ (execute_next_step st).1.current_step_index
          ≤ (execute_next_step st).1.script_lines.length)
    ∧ (st.current_step_index = st.script_lines.length →
        execute_next_step st = (st, [ScriptEff.statusFinished]))
    ∧ (∀ ops : List ScriptOp,
        (runOps st ops).current_step_index
          ≤ (runOps st ops).script_lines.length) := by
  obtain ⟨h1, h2, h3⟩ := execute_next_step_cursor st h
  exact ⟨⟨h1, by rw [h3]; exact h2⟩,
         fun he => execute_next_step_terminal st he,
         fun ops => runOps_cursor_le ops st h⟩

theorem script_cursor_invariant_witness :
    (⟨["cmd1", "", "cmd2"], 0⟩ : ScriptSt).current_step_index
        ≤ (⟨["cmd1", "", "cmd2"], 0⟩ : ScriptSt).script_lines.length
    ∧ (runOps ⟨["cmd1", "", "cmd2"], 0⟩
          [ScriptOp.execNext, ScriptOp.execNext, ScriptOp.execNext]).current_step_index
        ≤ (runOps ⟨["cmd1", "", "cmd2"], 0⟩
          [ScriptOp.execNext, ScriptOp.execNext, ScriptOp.execNext]).script_lines.length :=
  ⟨by decide,
   (script_cursor_invariant ⟨["cmd1", "", "cmd2"], 0⟩ (by decide)).2.2
     [ScriptOp.execNext, ScriptOp.execNext, ScriptOp.execNext]⟩

end TauGui
